import Mathlib

/-!
Verification of the CFTC COT pipeline of `src/app.py`.

The shallow embedding below translates the pure core of the program:
`get_cftc_data` (source retrieval and concatenation), `find_column`
(keyword-based schema resolution), `process_cftc` (instrument filtering,
net-position computation, sort / deduplicate / trailing-window), and
`render_news_alert` (staleness classification).  Network fetches are
modelled as oracle functions passed in as arguments; `pd.to_datetime`
is modelled as a per-cell parse oracle.  Exceptions that escape the
Python functions are modelled with `Except`.
-/

namespace App

/-- A cell of a pandas DataFrame as used by this program: either text or a
number (the position columns are integer contract counts). -/
inductive Value where
  | str (s : String)
  | num (n : Int)
deriving DecidableEq

/-- Python `str(x)` on a cell. -/
def Value.toStr : Value → String
  | .str s => s
  | .num n => toString n

/-- Python `s.lower()` (ASCII data throughout this program). -/
def strLower (s : String) : String := ⟨s.data.map Char.toLower⟩

/-- Python `s.upper()` (ASCII data throughout this program). -/
def strUpper (s : String) : String := ⟨s.data.map Char.toUpper⟩

/-- Python substring membership `pat in s`. -/
def strContains (s pat : String) : Bool :=
  (s.data.tails).any (fun t => pat.data.isPrefixOf t)

/-- A raw report table: a pandas DataFrame with its column identifiers and
rows of cells, column order significant (`RawReportTable` of the spec). -/
structure RawTable where
  cols : List String
  rows : List (List Value)
deriving DecidableEq

/-- `pd.DataFrame()`: the empty DataFrame. -/
def RawTable.empty : RawTable := ⟨[], []⟩

/-- pandas `df.empty`: true when some axis has length zero. -/
def RawTable.isEmpty (t : RawTable) : Bool := t.rows.isEmpty || t.cols.isEmpty

/-- The annual-history bundle URL built in `get_cftc_data` (line 37). -/
def historyUrl (year : Nat) : String :=
  "https://www.cftc.gov/files/dea/history/fut_disagg_txt_" ++ toString year ++ ".zip"

/-- The latest-week snapshot URL with its cache-busting query (lines 38, 58). -/
def latestUrl (t : Nat) : String :=
  "https://www.cftc.gov/dea/newcot/f_disagg.txt?t=" ++ toString t

/-- Outcome of one `requests.get` plus parse: `none` is a raised request
exception (timeout etc.); otherwise the HTTP status together with the
result of `pd.read_csv` on the body (`none` when parsing raises). -/
def FetchHist := String → Option (Nat × Option RawTable)

/-- Same for the latest-week file, whose headerless body parses to bare rows. -/
def FetchLive := String → Option (Nat × Option (List (List Value)))

/-- `df_hist` as computed by lines 44-53: the parsed table when the request
returned status 200 and parsing succeeded, the empty DataFrame otherwise
(every failure is swallowed by the `try`/`except`). -/
def histTable (fetchHist : FetchHist) (url : String) : RawTable :=
  match fetchHist url with
  | some (status, parsed) =>
      if status == 200 then parsed.getD RawTable.empty else RawTable.empty
  | none => RawTable.empty

/-- `df_live` as computed by lines 45, 55-67: the headerless rows are parsed
and labelled with `df_hist`'s columns only when the request returned 200
AND `df_hist` is non-empty; in every other case it stays empty. -/
def liveTable (fetchLive : FetchLive) (url : String) (df_hist : RawTable) : RawTable :=
  match fetchLive url with
  | some (status, parsed) =>
      if status == 200 && !df_hist.isEmpty then
        match parsed with
        | some rows => { cols := df_hist.cols, rows := rows }
        | none => RawTable.empty
      else RawTable.empty
  | none => RawTable.empty

/-- Lines 69-71: the empty DataFrame when both parts are empty, else
`pd.concat([df_hist, df_live], ignore_index=True)`. -/
def concat_result (df_hist df_live : RawTable) : RawTable :=
  if df_hist.isEmpty && df_live.isEmpty then RawTable.empty
  else { cols := df_hist.cols, rows := df_hist.rows ++ df_live.rows }

/-- `get_cftc_data` (lines 35-71).  Returns the concatenated table together
with the list of URLs the function requested (both GETs are issued
unconditionally, lines 49 and 57). -/
def get_cftc_data (year t : Nat) (fetchHist : FetchHist) (fetchLive : FetchLive) :
    RawTable × List String :=
  (concat_result (histTable fetchHist (historyUrl year))
     (liveTable fetchLive (latestUrl t) (histTable fetchHist (historyUrl year))),
   [historyUrl year, latestUrl t])

/-- The matching condition of `find_column` (line 77): every keyword occurs
in the lowercased column identifier. -/
def colMatches (keywords : List String) (col : String) : Bool :=
  keywords.all (fun k => strContains (strLower col) k)

/-- `find_column` (lines 74-79): first column, in table order, whose
lowercased identifier contains every keyword; `None` when no column does. -/
def find_column (columns : List String) (keywords : List String) : Option String :=
  match columns with
  | [] => none
  | col :: rest => if colMatches keywords col then some col else find_column rest keywords

/-- Name-column resolution of lines 86-88 (`x or y` on truthy Python values). -/
def resolve_name_col (cols : List String) : Option String :=
  (find_column cols ["market", "exchange"]).orElse
    (fun _ => find_column cols ["contract", "name"])

/-- Date-column resolution of lines 97-99. -/
def resolve_date_col (cols : List String) : Option String :=
  (find_column cols ["report", "date"]).orElse
    (fun _ => find_column cols ["as", "of", "date"])

/-- Cell access `row[col]` through the table's column list; pandas fills
absent cells with NaN, rendered here as the string cell "nan". -/
def cellAt (cols : List String) (row : List Value) (c : String) : Value :=
  match cols.indexOf? c with
  | some i => row.getD i (Value.str "nan")
  | none => Value.str "nan"

/-- The row mask of line 92: `any(k in str(x).upper() for k in name_keywords)`. -/
def row_matches (name_keywords : List String) (x : Value) : Bool :=
  name_keywords.any (fun k => strContains (strUpper x.toStr) k)

/-- `data = df[mask]` (lines 92-93): rows whose name cell matches. -/
def filter_rows (cols : List String) (rows : List (List Value))
    (name_col : String) (name_keywords : List String) : List (List Value) :=
  rows.filter (fun r => row_matches name_keywords (cellAt cols r name_col))

/-- An exception escaping the Python function. -/
inductive PyErr where
  | keyError
  | typeError
  | parseError
deriving DecidableEq

/-- One record of the produced series: parsed report date (`Date_Display`),
net position (`Net`), and the instrument name cell. -/
structure PRow where
  date : Int
  net : Int
  name : String
deriving DecidableEq

/-- Line 100, `pd.to_datetime(data[date_col])` with its default
`errors='raise'`: a cell the parse oracle rejects raises, aborting the
whole table; otherwise each kept row is paired with its parsed date. -/
def parse_dates (parse : Value → Option Int) (cols : List String) (date_col : String) :
    List (List Value) → Except PyErr (List (List Value × Int))
  | [] => .ok []
  | r :: rs =>
    match parse (cellAt cols r date_col) with
    | none => .error .parseError
    | some d =>
      match parse_dates parse cols date_col rs with
      | .ok rest => .ok ((r, d) :: rest)
      | .error e => .error e

/-- Pandas column subtraction on one pair of cells (line 107): numeric cells
subtract, anything else raises a TypeError. -/
def Value.subVal : Value → Value → Except PyErr Int
  | .num a, .num b => .ok (a - b)
  | _, _ => .error .typeError

/-- Lines 107-108: `Net = long − short` and `Date_Display` per kept row. -/
def compute_rows (cols : List String) (name_col long_col short_col : String) :
    List (List Value × Int) → Except PyErr (List PRow)
  | [] => .ok []
  | (r, d) :: rs =>
    match Value.subVal (cellAt cols r long_col) (cellAt cols r short_col) with
    | .error e => .error e
    | .ok net =>
      match compute_rows cols name_col long_col short_col rs with
      | .ok rest => .ok (⟨d, net, (cellAt cols r name_col).toStr⟩ :: rest)
      | .error e => .error e

/-- Sort key of line 110. -/
def dateLe (a b : PRow) : Prop := a.date ≤ b.date

instance : DecidableRel dateLe := fun a b => Int.decLe a.date b.date

instance : IsTotal PRow dateLe := ⟨fun a b => Int.le_total a.date b.date⟩

instance : IsTrans PRow dateLe := ⟨fun _ _ _ h₁ h₂ => Int.le_trans h₁ h₂⟩

/-- `data.sort_values("Date_Display")` (line 110).  pandas' default
`kind='quicksort'` guarantees only a sort by the date key, not the
relative order of rows with equal dates; the model fixes one admissible
outcome (insertion sort), and any statement that depends on the order of
equal-date rows is instead quantified over an arbitrary sorted
rearrangement of the input. -/
def sortByDate (l : List PRow) : List PRow := List.insertionSort dateLe l

/-- `data.drop_duplicates(subset=["Date_Display"], keep="last")` (line 111):
a row is kept exactly when no later row carries the same date. -/
def dedup_keep_last : List PRow → List PRow
  | [] => []
  | r :: rs =>
    if rs.any (fun r2 => r2.date == r.date) then dedup_keep_last rs
    else r :: dedup_keep_last rs

/-- pandas `df.tail(n)`: the last `n` rows. -/
def takeLast (n : Nat) (l : List α) : List α := l.drop (l.length - n)

/-- The merge-and-deduplicate step (lines 110-111). -/
def merge_dedup (l : List PRow) : List PRow := dedup_keep_last (sortByDate l)

/-- Lines 110-112: sort, deduplicate keeping the last, truncate to the
trailing 52 observations. -/
def finalize (l : List PRow) : List PRow := takeLast 52 (merge_dedup l)

/-- `process_cftc` (lines 82-112).  `.ok` is the returned series, `.error`
an exception escaping the function: `data[None]` raises `KeyError` when the
date column fails to resolve (line 100 has no `None` guard, unlike the name
and long/short columns), and `pd.to_datetime` raises on unparsable dates. -/
def process_cftc (parse : Value → Option Int) (df : RawTable) (name_keywords : List String) :
    Except PyErr (List PRow) :=
  if df.isEmpty then .ok []
  else
    match resolve_name_col df.cols with
    | none => .ok []
    | some name_col =>
      if (filter_rows df.cols df.rows name_col name_keywords).isEmpty then .ok []
      else
        match resolve_date_col df.cols with
        | none => .error .keyError
        | some date_col =>
          match parse_dates parse df.cols date_col
              (filter_rows df.cols df.rows name_col name_keywords) with
          | .error e => .error e
          | .ok dated =>
            match find_column df.cols ["money", "long"], find_column df.cols ["money", "short"] with
            | some long_col, some short_col =>
              match compute_rows df.cols name_col long_col short_col dated with
              | .error e => .error e
              | .ok prows => .ok (finalize prows)
            | _, _ => .ok []

/-- Staleness signal surfaced by `render_news_alert`. -/
inductive Staleness where
  | fresh
  | lagging
deriving DecidableEq

/-- Day number of a Gregorian calendar date (days since 0000-03-01), the
standard civil-calendar formula; valid for the years used here. -/
def rataDie (y m d : Nat) : Nat :=
  let y' := if m ≤ 2 then y - 1 else y
  let era := y' / 400
  let yoe := y' - era * 400
  let mp := if m > 2 then m - 3 else m + 9
  let doy := (153 * mp + 2) / 5 + d - 1
  let doe := yoe * 365 + yoe / 4 - yoe / 100 + doy
  era * 146097 + doe

/-- `render_news_alert` (lines 321-326): `none` models the early return on a
null date (no signal); otherwise the lag in whole days is compared with the
14-day threshold and the classification is surfaced to the consumer. -/
def render_news_alert (now : Nat) (last_date_obj : Option Nat) : Option Staleness :=
  match last_date_obj with
  | none => none
  | some last => if (now : Int) - (last : Int) > 14 then some .lagging else some .fresh

/-! ### Concrete example data used by the scenario claims -/

/-- The disaggregated-report column set of the Schema Resolver scenario. -/
def cftcCols : List String :=
  ["Market_and_Exchange_Names", "Report_Date_as_YYYY-MM-DD",
   "M_Money_Positions_Long_ALL", "M_Money_Positions_Short_ALL"]

/-- The one true gold contract row name. -/
def goldName : String := "GOLD - COMMODITY EXCHANGE INC."

/-- A concrete date-parse oracle for the scenario tables: timestamp-like
numeric cells parse, free-text cells do not. -/
def parse_num : Value → Option Int
  | .num n => some n
  | .str _ => none

/-! ### Schema resolution: first-match semantics -/

/-- Substring containment characterised: `pat` occurs in `s` iff `s` splits
around `pat`. -/
theorem strContains_iff (s pat : String) :
    strContains s pat = true ↔ ∃ l₁ l₂, s.data = l₁ ++ pat.data ++ l₂ := by
  unfold strContains
  rw [List.any_eq_true]
  constructor
  · rintro ⟨t, ht, hp⟩
    rw [List.mem_tails] at ht
    rw [ List.isPrefixOf_iff_prefix] at hp
    obtain ⟨r, hr⟩ := hp
    obtain ⟨q, hq⟩ := ht
    exact ⟨q, r, by rw [← hq, ← hr, List.append_assoc]⟩
  · rintro ⟨l₁, l₂, h⟩
    refine ⟨pat.data ++ l₂, ?_, ?_⟩
    · rw [List.mem_tails]
      exact ⟨l₁, by rw [h, List.append_assoc]⟩
    · rw [ List.isPrefixOf_iff_prefix]
      exact ⟨l₂, rfl⟩

/-- The loop of `find_column` is `List.find?` with the keyword test. -/
theorem find_column_eq_find? (cols kws : List String) :
    find_column cols kws = cols.find? (colMatches kws) := by
  induction cols with
  | nil => rfl
  | cons col rest ih =>
    by_cases h : colMatches kws col = true
    · unfold find_column
      rw [if_pos h, List.find?_cons_of_pos _ h]
    · unfold find_column
      rw [if_neg h, List.find?_cons_of_neg _ h, ih]

/-- `find_column` returns a column iff it matches and everything before it in
table order does not. -/
theorem find_column_some_iff (cols kws : List String) (c : String) :
    find_column cols kws = some c ↔
      colMatches kws c = true ∧
        ∃ pre post, cols = pre ++ c :: post ∧ ∀ x ∈ pre, colMatches kws x = false := by
  rw [find_column_eq_find?, List.find?_eq_some]
  simp only [Bool.not_eq_true']

/-- `find_column` returns `none` iff no column matches. -/
theorem find_column_none_iff (cols kws : List String) :
    find_column cols kws = none ↔ ∀ c ∈ cols, colMatches kws c = false := by
  rw [find_column_eq_find?, List.find?_eq_none]
  simp only [Bool.not_eq_true]

/-! ### Sort, deduplicate, trailing window -/

theorem sortByDate_sorted (l : List PRow) : List.Sorted dateLe (sortByDate l) :=
  List.sorted_insertionSort dateLe l

theorem dedup_keep_last_sublist (l : List PRow) : List.Sublist (dedup_keep_last l) l := by
  induction l with
  | nil => exact List.Sublist.refl []
  | cons r rs ih =>
    rw [dedup_keep_last]
    by_cases h : rs.any (fun r2 => r2.date == r.date) = true
    · rw [if_pos h]
      exact ih.cons r
    · rw [if_neg h]
      exact ih.cons₂ r

theorem dedup_keep_last_dates_nodup (l : List PRow) :
    ((dedup_keep_last l).map PRow.date).Nodup := by
  induction l with
  | nil => simp [dedup_keep_last]
  | cons r rs ih =>
    rw [dedup_keep_last]
    by_cases h : rs.any (fun r2 => r2.date == r.date) = true
    · rw [if_pos h]
      exact ih
    · rw [if_neg h, List.map_cons, List.nodup_cons]
      refine ⟨?_, ih⟩
      intro hmem
      rw [List.mem_map] at hmem
      obtain ⟨x, hx, hxd⟩ := hmem
      have hx' : x ∈ rs := (dedup_keep_last_sublist rs).subset hx
      have h' : rs.any (fun r2 => r2.date == r.date) = false := by simpa using h
      exact List.any_eq_false.mp h' x hx' (beq_iff_eq.mpr hxd)

theorem dedup_keep_last_eq_self (l : List PRow) (h : (l.map PRow.date).Nodup) :
    dedup_keep_last l = l := by
  induction l with
  | nil => rfl
  | cons r rs ih =>
    rw [List.map_cons, List.nodup_cons] at h
    have hany : rs.any (fun r2 => r2.date == r.date) = false := by
      rw [List.any_eq_false]
      intro x hx hbeq
      exact h.1 (List.mem_map.mpr ⟨x, hx, eq_of_beq hbeq⟩)
    rw [dedup_keep_last, if_neg (by simp [hany]), ih h.2]

/-- Keep-last deduplication retains, for each date, exactly the last row of
that date in input order. -/
theorem dedup_keep_last_filter (d : Int) (l : List PRow) :
    (dedup_keep_last l).filter (fun r => r.date == d) =
      ((l.filter (fun r => r.date == d)).getLast?).toList := by
  induction l with
  | nil => rfl
  | cons r rs ih =>
    rw [dedup_keep_last]
    by_cases h : rs.any (fun r2 => r2.date == r.date) = true
    · rw [if_pos h, ih, List.filter_cons]
      by_cases hrd : (r.date == d) = true
      · rw [if_pos hrd]
        obtain ⟨x, hx, hbeq⟩ := List.any_eq_true.mp h
        have hxd : (x.date == d) = true :=
          beq_iff_eq.mpr ((eq_of_beq hbeq).trans (eq_of_beq hrd))
        have hmem : x ∈ rs.filter (fun r2 => r2.date == d) := List.mem_filter.mpr ⟨hx, hxd⟩
        cases hf : rs.filter (fun r2 => r2.date == d) with
        | nil => rw [hf] at hmem; cases hmem
        | cons y ys => rw [List.getLast?_cons_cons]
      · rw [if_neg hrd]
    · rw [if_neg h, List.filter_cons, List.filter_cons]
      by_cases hrd : (r.date == d) = true
      · rw [if_pos hrd, if_pos hrd]
        have h' : rs.any (fun r2 => r2.date == r.date) = false := by simpa using h
        have hfe : rs.filter (fun r2 => r2.date == d) = [] := by
          rw [List.filter_eq_nil_iff]
          intro x hx hxd
          exact List.any_eq_false.mp h' x hx
            (beq_iff_eq.mpr ((eq_of_beq hxd).trans (eq_of_beq hrd).symm))
        rw [ih, hfe]
        rfl
      · rw [if_neg hrd, if_neg hrd, ih]

theorem merge_dedup_sorted (l : List PRow) : List.Pairwise dateLe (merge_dedup l) :=
  List.Pairwise.sublist (dedup_keep_last_sublist _) (sortByDate_sorted l)

theorem merge_dedup_dates_nodup (l : List PRow) :
    ((merge_dedup l).map PRow.date).Nodup :=
  dedup_keep_last_dates_nodup _

theorem takeLast_sublist (n : Nat) (l : List α) : List.Sublist (takeLast n l) l :=
  List.drop_sublist _ _

theorem takeLast_length_le (n : Nat) (l : List α) : (takeLast n l).length ≤ n := by
  rw [takeLast, List.length_drop]
  omega

theorem takeLast_of_length_le (n : Nat) (l : List α) (h : l.length ≤ n) : takeLast n l = l := by
  rw [takeLast, Nat.sub_eq_zero_of_le h, List.drop_zero]

theorem finalize_sorted (l : List PRow) : List.Pairwise dateLe (finalize l) :=
  List.Pairwise.sublist (takeLast_sublist _ _) (merge_dedup_sorted l)

theorem finalize_dates_nodup (l : List PRow) : ((finalize l).map PRow.date).Nodup :=
  List.Nodup.sublist (List.Sublist.map PRow.date (takeLast_sublist _ _))
    (merge_dedup_dates_nodup l)

theorem finalize_length_le (l : List PRow) : (finalize l).length ≤ 52 :=
  takeLast_length_le _ _

/-- The produced window has strictly increasing dates. -/
theorem finalize_strict (l : List PRow) :
    List.Pairwise (fun a b => a.date < b.date) (finalize l) := by
  have hne : List.Pairwise (fun a b : PRow => a.date ≠ b.date) (finalize l) :=
    List.pairwise_map.mp (finalize_dates_nodup l)
  exact ((finalize_sorted l).and hne).imp (fun h => lt_of_le_of_ne h.1 h.2)

theorem finalize_idem (l : List PRow) : finalize (finalize l) = finalize l := by
  have h1 : sortByDate (finalize l) = finalize l := by
    rw [sortByDate]
    exact List.Sorted.insertionSort_eq (finalize_sorted l)
  have h2 : dedup_keep_last (finalize l) = finalize l :=
    dedup_keep_last_eq_self _ (finalize_dates_nodup l)
  calc finalize (finalize l)
      = takeLast 52 (dedup_keep_last (sortByDate (finalize l))) := rfl
    _ = takeLast 52 (finalize l) := by rw [h1, h2]
    _ = finalize l := takeLast_of_length_le _ _ (finalize_length_le l)

/-! ### Shape of `process_cftc`'s successful results -/

/-- Every successful result of `process_cftc` is either the empty series or
the finalized (sorted, deduplicated, windowed) series of some row list. -/
theorem process_cftc_ok_shape (parse : Value → Option Int) (df : RawTable)
    (kws : List String) (out : List PRow) (h : process_cftc parse df kws = .ok out) :
    out = [] ∨ ∃ l, out = finalize l := by
  unfold process_cftc at h
  repeat' split at h
  all_goals
    first
      | exact Or.inl (Except.ok.inj h).symm
      | exact Except.noConfusion h
      | exact Or.inr ⟨_, (Except.ok.inj h).symm⟩

/-! ### Error propagation helpers -/

/-- `pd.to_datetime` with its default `errors='raise'`: one unparsable date
cell among the kept rows aborts the whole column. -/
theorem parse_dates_error_of_mem (parse : Value → Option Int) (cols : List String)
    (date_col : String) (rows : List (List Value)) (r : List Value)
    (hr : r ∈ rows) (hparse : parse (cellAt cols r date_col) = none) :
    parse_dates parse cols date_col rows = .error .parseError := by
  induction rows with
  | nil => cases hr
  | cons a rs ih =>
    simp only [parse_dates]
    rcases List.mem_cons.mp hr with rfl | hr'
    · rw [hparse]
    · cases hp : parse (cellAt cols a date_col) with
      | none => rfl
      | some d => rw [ih hr']

/-- When the history table is empty the latest-week rows are never labelled:
`df_live` stays empty (the guard of line 63). -/
theorem liveTable_of_hist_empty (fetchLive : FetchLive) (url : String) (dh : RawTable)
    (h : dh.isEmpty = true) : liveTable fetchLive url dh = RawTable.empty := by
  unfold liveTable
  cases hf : fetchLive url with
  | none => rfl
  | some p =>
    obtain ⟨s, parsed⟩ := p
    simp [h]

/-! ### Concrete fetch oracles and tables for the scenario claims -/

/-- A network fetch that raises (timeout / connection error). -/
def fetchHistFail : FetchHist := fun _ => none

/-- The latest-week fetch raising. -/
def fetchLiveFail : FetchLive := fun _ => none

/-- A two-row disaggregated gold table, rows out of date order. -/
def tbl1 : RawTable :=
  { cols := cftcCols,
    rows := [[.str goldName, .num 100, .num 45000, .num 32000],
             [.str goldName, .num 99, .num 40000, .num 31000]] }

/-- A table with no resolvable report-date column. -/
def tblNoDate : RawTable :=
  { cols := ["Market_and_Exchange_Names", "M_Money_Positions_Long_ALL",
             "M_Money_Positions_Short_ALL"],
    rows := [[.str goldName, .num 45000, .num 32000]] }

/-- A table whose first gold row has a date the parse oracle rejects. -/
def tblBadDate : RawTable :=
  { cols := cftcCols,
    rows := [[.str goldName, .str "notadate", .num 45000, .num 32000],
             [.str goldName, .num 200, .num 40000, .num 30000]] }

/-- One raw latest-week row (headerless file). -/
def liveRawRow : List Value := [.str goldName, .num 100, .num 46000, .num 30000]

/-- A history fetch succeeding with `tbl1`. -/
def fetchHistOk : FetchHist := fun _ => some (200, some tbl1)

/-- A latest-week fetch succeeding with one raw row. -/
def fetchLiveOk : FetchLive := fun _ => some (200, some [liveRawRow])

/-- Processed history record of date 100. -/
def histRow : PRow := ⟨100, 13000, goldName⟩

/-- Processed latest-week record of the same date with a different net. -/
def liveRow : PRow := ⟨100, 16000, goldName⟩

theorem concat_result_of_hist_nonempty (dh dl : RawTable) (h : dh.isEmpty = false) :
    concat_result dh dl = { cols := dh.cols, rows := dh.rows ++ dl.rows } := by
  simp [concat_result, h]

theorem concat_result_isEmpty_false (dh dl : RawTable) (h : dh.isEmpty = false) :
    (concat_result dh dl).isEmpty = false := by
  have h' : dh.rows.isEmpty = false ∧ dh.cols.isEmpty = false := by
    have h2 := h
    unfold RawTable.isEmpty at h2
    exact Bool.or_eq_false_iff.mp h2
  obtain ⟨hrw, hc⟩ := h'
  have hrne : dh.rows ≠ [] := List.isEmpty_eq_false.mp hrw
  rw [concat_result_of_hist_nonempty dh dl h]
  unfold RawTable.isEmpty
  rw [Bool.or_eq_false_iff]
  exact ⟨List.isEmpty_eq_false.mpr
    (fun hnil => hrne (List.append_eq_nil.mp hnil).1), hc⟩

/-! ### The claims -/

/-- C1: every series returned by `process_cftc` has strictly increasing
`report_date` values: records are ordered ascending by date and no two
records share an equal date. -/
theorem process_series_dates_strictly_increasing (parse : Value → Option Int)
    (df : RawTable) (kws : List String) (out : List PRow)
    (h : process_cftc parse df kws = .ok out) :
    List.Pairwise (fun a b => a.date < b.date) out := by
  rcases process_cftc_ok_shape parse df kws out h with rfl | ⟨l, rfl⟩
  · exact List.Pairwise.nil
  · exact finalize_strict l

/-- Witness for C1 at a concrete two-row gold table given out of date
order. -/
theorem process_series_dates_strictly_increasing_witness :
    List.Pairwise (fun a b : PRow => a.date < b.date)
      [⟨99, 9000, goldName⟩, ⟨100, 13000, goldName⟩] :=
  process_series_dates_strictly_increasing parse_num tbl1 ["GOLD"]
    [⟨99, 9000, goldName⟩, ⟨100, 13000, goldName⟩] (by rfl)

/-- C2(amended): `get_cftc_data` appends the latest-week rows after the
history rows; keep-last deduplication of any sorted rearrangement of the
concatenation keeps exactly one record per duplicated report date — some
record carrying that date — and that record is the latest-week one
precisely when the sort left the rows of that date in concatenation order,
which pandas' default unstable `kind='quicksort'` does not guarantee. -/
theorem latest_week_wins_only_under_stable_tie_order :
    (∀ (year t : Nat) (ht : RawTable) (lrows : List (List Value)),
        ht.isEmpty = false →
        (get_cftc_data year t (fun _ => some (200, some ht))
            (fun _ => some (200, some lrows))).1.rows = ht.rows ++ lrows)
    ∧ (∀ (l s : List PRow) (v : PRow),
        List.Pairwise dateLe s → s.Perm l → v ∈ l →
        ∃ w, w ∈ l ∧ w.date = v.date ∧
          (dedup_keep_last s).filter (fun r => r.date == v.date) = [w])
    ∧ (∀ (hist live s : List PRow) (v : PRow),
        (live.filter (fun r => r.date == v.date)).getLast? = some v →
        s.filter (fun r => r.date == v.date)
            = (hist ++ live).filter (fun r => r.date == v.date) →
        (dedup_keep_last s).filter (fun r => r.date == v.date) = [v]) := by
  refine ⟨?_, ?_, ?_⟩
  · intro year t ht lrows h
    have hh : histTable (fun _ => some (200, some ht)) (historyUrl year) = ht := rfl
    have hl : liveTable (fun _ => some (200, some lrows)) (latestUrl t) ht
        = { cols := ht.cols, rows := lrows } := by
      unfold liveTable
      simp [h]
    show (concat_result (histTable (fun _ => some (200, some ht)) (historyUrl year))
      (liveTable (fun _ => some (200, some lrows)) (latestUrl t)
        (histTable (fun _ => some (200, some ht)) (historyUrl year)))).rows = ht.rows ++ lrows
    rw [hh, hl, concat_result_of_hist_nonempty ht _ h]
  · intro l s v _hsorted hperm hv
    have hvs : v ∈ s := hperm.mem_iff.mpr hv
    have hvf : v ∈ s.filter (fun r => r.date == v.date) :=
      List.mem_filter.mpr ⟨hvs, beq_iff_eq.mpr rfl⟩
    cases hf : (s.filter (fun r => r.date == v.date)).getLast? with
    | none =>
      rw [List.getLast?_eq_none_iff] at hf
      rw [hf] at hvf
      cases hvf
    | some w =>
      have hwf : w ∈ s.filter (fun r => r.date == v.date) :=
        List.mem_of_getLast?_eq_some hf
      obtain ⟨hws, hwd⟩ := List.mem_filter.mp hwf
      refine ⟨w, hperm.mem_iff.mp hws, eq_of_beq hwd, ?_⟩
      rw [dedup_keep_last_filter, hf]
      rfl
  · intro hist live s v hv hstab
    rw [dedup_keep_last_filter, hstab, List.filter_append]
    have hne : live.filter (fun r => r.date == v.date) ≠ [] := by
      intro hnil
      rw [hnil] at hv
      cases hv
    rw [List.getLast?_append_of_ne_nil _ hne, hv]
    rfl

/-- Witness for C2: concrete append order; under the adversarial sorted
order [latest, history] the date-100 survivor exists among the candidates;
under the concatenation-order tie order [history, latest] the survivor is
the latest-week record. -/
theorem latest_week_wins_only_under_stable_tie_order_witness :
    (get_cftc_data 2025 0 (fun _ => some (200, some tbl1))
        (fun _ => some (200, some [liveRawRow]))).1.rows = tbl1.rows ++ [liveRawRow]
    ∧ (∃ w, w ∈ [histRow] ++ [liveRow] ∧ w.date = liveRow.date ∧
        (dedup_keep_last [liveRow, histRow]).filter
          (fun r => r.date == liveRow.date) = [w])
    ∧ (dedup_keep_last [histRow, liveRow]).filter
        (fun r => r.date == liveRow.date) = [liveRow] :=
  ⟨latest_week_wins_only_under_stable_tie_order.1 2025 0 tbl1 [liveRawRow] (by rfl),
   latest_week_wins_only_under_stable_tie_order.2.1 ([histRow] ++ [liveRow])
     [liveRow, histRow] liveRow (by decide) (by decide) (by decide),
   latest_week_wins_only_under_stable_tie_order.2.2 [histRow] [liveRow]
     [histRow, liveRow] liveRow (by rfl) (by rfl)⟩

/-- C2 counterexample: pandas `sort_values` defaults to the unstable
`kind='quicksort'`, so the relative order of two rows sharing a report
date after the sort is unspecified.  For the admissible sorted
rearrangement of the concatenation [history net 13000, latest net 16000]
that places the latest-week row first, `drop_duplicates(keep="last")`
keeps the stale history value rather than the latest-week value, so the
code does not guarantee the claimed later-in-concatenation survivor. -/
theorem unstable_sort_can_keep_history_value_cex :
    List.Pairwise dateLe [liveRow, histRow]
    ∧ List.Perm [liveRow, histRow] ([histRow] ++ [liveRow])
    ∧ histRow.net ≠ liveRow.net
    ∧ dedup_keep_last [liveRow, histRow] = [histRow]
    ∧ ([histRow] : List PRow) ≠ [liveRow] :=
  ⟨by decide, by decide, by decide, by rfl, by decide⟩

/-- C3: the code violates the all-or-nothing contract.  On a table whose
name column resolves and has matching rows but whose date column does not
resolve, `process_cftc` raises `KeyError` (`data[None]`, the unguarded
line 100) — while name (line 89) and long/short (line 104) failures return
the empty result as the contract asks. -/
theorem unresolved_date_column_raises :
    resolve_name_col tblNoDate.cols = some "Market_and_Exchange_Names"
    ∧ resolve_date_col tblNoDate.cols = none
    ∧ process_cftc parse_num tblNoDate ["GOLD"] = .error .keyError :=
  ⟨rfl, rfl, rfl⟩

/-- C4(amended): `get_cftc_data` requests exactly two URLs — the current
calendar year's annual-history bundle and the latest-week snapshot; no
prior-year bundle is ever requested (the latest-week source indeed has no
year fallback, but neither does the history source). -/
theorem requested_urls_no_year_fallback :
    (∀ (year t : Nat) (fetchHist : FetchHist) (fetchLive : FetchLive),
        (get_cftc_data year t fetchHist fetchLive).2 = [historyUrl year, latestUrl t])
    ∧ (∀ (fetchHist : FetchHist) (fetchLive : FetchLive),
        historyUrl 2024 ∉ (get_cftc_data 2025 0 fetchHist fetchLive).2) := by
  constructor
  · intro year t fh fl
    rfl
  · intro fh fl
    show historyUrl 2024 ∉ [historyUrl 2025, latestUrl 0]
    decide

/-- C4 counterexample: with the 2025 annual-history fetch failing (the
oracle raises on every URL) and the result empty, the prior year's URL is
still never requested — there is no year fallback in the code. -/
theorem no_prior_year_fallback_cex :
    fetchHistFail (historyUrl 2025) = none
    ∧ (get_cftc_data 2025 0 fetchHistFail fetchLiveFail).1 = RawTable.empty
    ∧ historyUrl 2024 ∉ (get_cftc_data 2025 0 fetchHistFail fetchLiveFail).2 :=
  ⟨rfl, rfl, by decide⟩

/-- C5(amended): a latest-week failure never discards a successful
annual-history result — the output then holds all history rows followed by
any latest-week rows and is non-empty; but when the annual-history part is
empty, the whole result is empty even if the latest-week fetch succeeded,
because the headerless latest-week rows are only parsed and labelled when
`df_hist` is non-empty (the guard of line 63). -/
theorem history_result_authoritative (year t : Nat)
    (fetchHist : FetchHist) (fetchLive : FetchLive) :
    ((histTable fetchHist (historyUrl year)).isEmpty = false →
        (get_cftc_data year t fetchHist fetchLive).1.rows
            = (histTable fetchHist (historyUrl year)).rows
              ++ (liveTable fetchLive (latestUrl t)
                    (histTable fetchHist (historyUrl year))).rows
          ∧ (get_cftc_data year t fetchHist fetchLive).1.isEmpty = false)
    ∧ ((histTable fetchHist (historyUrl year)).isEmpty = true →
        (get_cftc_data year t fetchHist fetchLive).1 = RawTable.empty) := by
  constructor
  · intro h
    constructor
    · show (concat_result _ _).rows = _
      rw [concat_result_of_hist_nonempty _ _ h]
    · exact concat_result_isEmpty_false _ _ h
  · intro h
    show concat_result _ _ = RawTable.empty
    rw [liveTable_of_hist_empty _ _ _ h]
    have hc : ((histTable fetchHist (historyUrl year)).isEmpty
        && RawTable.empty.isEmpty) = true := by rw [h]; rfl
    unfold concat_result
    rw [if_pos hc]

/-- Witness for C5 at concrete oracles: history-only success gives a
non-empty result; history failure with a live-only success gives the empty
result. -/
theorem history_result_authoritative_witness :
    ((histTable fetchHistOk (historyUrl 2025)).isEmpty = false
      ∧ (get_cftc_data 2025 0 fetchHistOk fetchLiveFail).1.isEmpty = false)
    ∧ ((histTable fetchHistFail (historyUrl 2025)).isEmpty = true
      ∧ (get_cftc_data 2025 0 fetchHistFail fetchLiveOk).1 = RawTable.empty) :=
  ⟨⟨rfl, ((history_result_authoritative 2025 0 fetchHistOk fetchLiveFail).1 rfl).2⟩,
   ⟨rfl, (history_result_authoritative 2025 0 fetchHistFail fetchLiveOk).2 rfl⟩⟩

/-- C5 counterexample: the latest-week fetch alone succeeds with non-empty
content (status 200, one row), the annual-history fetch fails, and the
returned table is empty — the successful source is discarded, refuting the
claim that exactly one success always yields a non-empty result. -/
theorem live_only_success_discarded_cex :
    fetchLiveOk (latestUrl 0) = some (200, some [liveRawRow])
    ∧ [liveRawRow] ≠ ([] : List (List Value))
    ∧ (get_cftc_data 2025 0 fetchHistFail fetchLiveOk).1 = RawTable.empty :=
  ⟨rfl, List.cons_ne_nil _ _, rfl⟩

/-- C6(amended): a report-date cell that `pd.to_datetime` cannot parse in
any instrument-matching row is fatal to the whole table: `process_cftc`
raises (default `errors='raise'`) instead of dropping the row. -/
theorem unparsable_date_aborts_table (parse : Value → Option Int) (df : RawTable)
    (kws : List String) (name_col date_col : String) (r : List Value)
    (hne : df.isEmpty = false)
    (hname : resolve_name_col df.cols = some name_col)
    (hdate : resolve_date_col df.cols = some date_col)
    (hr : r ∈ filter_rows df.cols df.rows name_col kws)
    (hparse : parse (cellAt df.cols r date_col) = none) :
    process_cftc parse df kws = .error .parseError := by
  have hde : (filter_rows df.cols df.rows name_col kws).isEmpty = false := by
    cases hfr : filter_rows df.cols df.rows name_col kws with
    | nil => rw [hfr] at hr; cases hr
    | cons a as => rfl
  unfold process_cftc
  simp only [hne, hname, hde, Bool.false_eq_true, if_false, hdate]
  rw [parse_dates_error_of_mem parse df.cols date_col _ r hr hparse]

/-- Witness for C6 at the concrete bad-date table. -/
theorem unparsable_date_aborts_table_witness :
    process_cftc parse_num tblBadDate ["GOLD"] = .error .parseError :=
  unparsable_date_aborts_table parse_num tblBadDate ["GOLD"]
    "Market_and_Exchange_Names" "Report_Date_as_YYYY-MM-DD"
    [.str goldName, .str "notadate", .num 45000, .num 32000]
    (by rfl) (by rfl) (by rfl) (by decide) (by rfl)

/-- C6 counterexample: on a table whose first matching row has an
unparsable date and whose second is fine, the code raises instead of
returning the series of the remaining parsable row, refuting the claim
that such rows are dropped. -/
theorem unparsable_date_not_dropped_cex :
    process_cftc parse_num tblBadDate ["GOLD"] = .error .parseError
    ∧ process_cftc parse_num tblBadDate ["GOLD"] ≠ .ok [⟨200, 10000, goldName⟩] :=
  ⟨rfl, fun h => Except.noConfusion h⟩

/-- C7(amended): the classification is FRESH when the lag is at most 14
days and LAGGING when it exceeds 14 days (at exactly 14 days the code says
FRESH, not LAGGING); the 41-day scenario classifies LAGGING and the 6-day
scenario FRESH, and the signal is returned to the caller, not swallowed. -/
theorem staleness_threshold_classification :
    (∀ now last : Nat,
        (render_news_alert now (some last) = some Staleness.lagging
            ↔ 14 < (now : Int) - last)
        ∧ (render_news_alert now (some last) = some Staleness.fresh
            ↔ (now : Int) - last ≤ 14))
    ∧ ((rataDie 2025 12 8 : Int) - rataDie 2025 10 28 = 41)
    ∧ render_news_alert (rataDie 2025 12 8) (some (rataDie 2025 10 28))
        = some Staleness.lagging
    ∧ ((rataDie 2025 12 8 : Int) - rataDie 2025 12 2 = 6)
    ∧ render_news_alert (rataDie 2025 12 8) (some (rataDie 2025 12 2))
        = some Staleness.fresh := by
  refine ⟨?_, by decide, by decide, by decide, by decide⟩
  intro now last
  simp only [render_news_alert]
  by_cases h : (now : Int) - (last : Int) > 14
  · rw [if_pos h]
    exact ⟨⟨fun _ => h, fun _ => rfl⟩,
      ⟨fun hfr => absurd (Option.some.inj hfr) (fun hc => Staleness.noConfusion hc),
       fun hle => absurd h (not_lt.mpr hle)⟩⟩
  · rw [if_neg h]
    exact ⟨⟨fun hlag => absurd (Option.some.inj hlag)
        (fun hc => Staleness.noConfusion hc),
      fun hlt => absurd hlt h⟩,
      ⟨fun _ => not_lt.mp h, fun _ => rfl⟩⟩

/-- C7 counterexample: at a lag of exactly 14 days (2025-11-24 to
2025-12-08) the code classifies FRESH, while the claim's rule — FRESH only
when the lag is strictly below the 14-day threshold, LAGGING otherwise —
demands LAGGING. -/
theorem fresh_at_exact_threshold_cex :
    ((rataDie 2025 12 8 : Int) - rataDie 2025 11 24 = 14)
    ∧ ¬ (render_news_alert (rataDie 2025 12 8) (some (rataDie 2025 11 24))
          = if ((rataDie 2025 12 8 : Int) - rataDie 2025 11 24) < 14
            then some Staleness.fresh else some Staleness.lagging) := by
  exact ⟨by decide, by decide⟩

/-- C8: for each keyword list, `find_column` scans the columns in native
table order and returns the first whose lowercased identifier contains
every keyword (`none` when no column qualifies); on the disaggregated
column set it resolves name, date, long and short to the four expected
columns. -/
theorem schema_resolver_first_match :
    (∀ (cols kws : List String) (c : String),
        find_column cols kws = some c ↔
          colMatches kws c = true ∧
            ∃ pre post, cols = pre ++ c :: post ∧ ∀ x ∈ pre, colMatches kws x = false)
    ∧ (∀ cols kws : List String,
        find_column cols kws = none ↔ ∀ c ∈ cols, colMatches kws c = false)
    ∧ (∀ (kws : List String) (c : String),
        colMatches kws c = true ↔
          ∀ k ∈ kws, ∃ l₁ l₂, (strLower c).data = l₁ ++ k.data ++ l₂)
    ∧ resolve_name_col cftcCols = some "Market_and_Exchange_Names"
    ∧ resolve_date_col cftcCols = some "Report_Date_as_YYYY-MM-DD"
    ∧ find_column cftcCols ["money", "long"] = some "M_Money_Positions_Long_ALL"
    ∧ find_column cftcCols ["money", "short"] = some "M_Money_Positions_Short_ALL" := by
  refine ⟨find_column_some_iff, find_column_none_iff, ?_,
    by decide, by decide, by decide, by decide⟩
  intro kws c
  unfold colMatches
  rw [List.all_eq_true]
  constructor
  · intro h k hk
    exact (strContains_iff _ _).mp (h k hk)
  · intro h k hk
    exact (strContains_iff _ _).mpr (h k hk)

/-- C9: a row matches the instrument iff its upper-cased name cell contains
at least one of the instrument keywords (OR semantics); the gold row
matches the singleton keyword set GOLD and the euro row does not. -/
theorem instrument_filter_or_semantics :
    (∀ (kws : List String) (x : Value),
        row_matches kws x = true ↔
          ∃ k ∈ kws, ∃ l₁ l₂, (strUpper x.toStr).data = l₁ ++ k.data ++ l₂)
    ∧ row_matches ["GOLD"] (Value.str goldName) = true
    ∧ row_matches ["GOLD"] (Value.str "EURO FX - CHICAGO MERCANTILE EXCHANGE") = false := by
  refine ⟨?_, by decide, by decide⟩
  intro kws x
  unfold row_matches
  rw [List.any_eq_true]
  constructor
  · rintro ⟨k, hk, hc⟩
    exact ⟨k, hk, (strContains_iff _ _).mp hc⟩
  · rintro ⟨k, hk, hc⟩
    exact ⟨k, hk, (strContains_iff _ _).mpr hc⟩

/-- C10: the merge-and-deduplicate step (sort by date, drop duplicate dates
keeping the last, truncate to the trailing 52-observation window) is
idempotent: applied to its own output it changes nothing. -/
theorem merge_dedup_window_idempotent (l : List PRow) :
    finalize (finalize l) = finalize l :=
  finalize_idem l

end App
